import Mathlib

/-!
# Verification of the flow registration and version-supersession resolvers

Shallow embedding of `src/prefect_server/graphql/flows.py` (the `create_flow`
resolver with its version-group resolution and supersession steps, and the
pass-through mutation resolvers), together with the external flow-store
operations it calls (`api.flows.*`, `models.Flow.where(...)`), which are not
part of the repository's source and are therefore modelled from the spec's
FlowStore contract.

Python dict/optional values are modelled with `Option`; Python truthiness of
an optional version-group identifier or flow identifier is made explicit
(`None` and the empty string are falsy). The store is explicit state: a list
of flow records plus counters used to mint fresh identifiers, and a log of
the store operations issued (used to state "no query/archive was issued"
properties). Archival success/failure is an environment oracle, so that
partial-failure behaviour of the supersession fan-out can be stated.
-/

set_option autoImplicit false

namespace FlowsResolver

/-- A version-group identifier: either a caller-visible string identifier or
a store-minted fresh identifier (numbered by the store's mint counter). -/
abbrev VGid := String ⊕ Nat

/-- Python truthiness of a version-group identifier value: the empty string is
falsy, every other value is truthy. -/
def vgTruthy : VGid → Bool
  | Sum.inl s => !s.isEmpty
  | Sum.inr _ => true

/-- Python truthiness of the resolver's `version_group_id` variable
(`None` and the empty string are falsy). -/
def pyTruthy : Option VGid → Bool
  | none => false
  | some v => vgTruthy v

/-- Python truthiness of an optional string (e.g. `input["flow_id"]`):
`None` and the empty string are falsy. -/
def strTruthy : Option String → Bool
  | none => false
  | some s => !s.isEmpty

/-- The serialized flow document; the resolver only reads its `name` field
(`serialized_flow.get("name")`, absent modelled as `none`). -/
structure SerializedFlow where
  name : Option String
deriving DecidableEq, Repr

/-- Flow identifiers minted by the store are numbered. -/
def mkFlowId (n : Nat) : String := "flow-" ++ toString n

/-- One persisted flow version (spec §3 FlowRecord): `id`, `projectId`,
`name`, version-group id, `archived` flag and creation timestamp, plus the
flow-group id read by the heartbeat/lazarus resolvers. -/
structure FlowRecord where
  id : String
  projectId : String
  name : Option String
  vg : VGid
  archived : Bool
  created : Nat
  flowGroupId : String
deriving DecidableEq, Repr

/-- Log entry for one store operation issued by a resolver. -/
inductive StoreOp where
  | queryByName (projectId : String) (name : Option String)
  | queryByVgid (vg : VGid)
  | createOp (flowId : String)
  | querySiblings (vg : VGid) (excludeId : String)
  | archiveOp (flowId : String)
  | deleteOp (flowId : Option String)
  | updateProjectOp (flowId : Option String) (projectId : Option String)
  | registerTasksOp (flowId : Option String)
  | registerEdgesOp (flowId : Option String)
  | queryById (flowId : Option String)
  | heartbeatOp (enable : Bool) (flowGroupId : String)
  | lazarusOp (enable : Bool) (flowGroupId : String)
  | scheduleOp (active : Bool) (flowId : Option String)
  | archiveDelegateOp (flowId : Option String)
deriving DecidableEq, Repr

/-- The external store's state: the flow records, the counters minting fresh
flow ids / version-group ids, a clock providing `created` timestamps, and the
log of store operations issued so far (most recent first). -/
structure StoreState where
  flows : List FlowRecord
  nextId : Nat
  nextVgid : Nat
  clock : Nat
  ops : List StoreOp
deriving Repr

/-- Outcomes of the external collaborator calls whose results are decided
outside this module (archive success, delete success, etc.). -/
structure Env where
  archiveOk : String → Bool
  deleteOk : Option String → Bool
  archiveDelegateOk : Option String → Bool
  updateProjectResult : Option String → Option String → String
  scheduleOk : Bool → Option String → Bool
  heartbeatOk : Bool → String → Bool
  lazarusOk : Bool → String → Bool

/-- Errors raised by the resolvers (`ValueError` in the source). -/
inductive ResolverError where
  | invalidProjectId
  | invalidFlowId
deriving DecidableEq, Repr

/-- Result shapes of the pass-through resolvers. -/
inductive PassResult where
  | success (b : Bool)
  | ident (s : String)
deriving DecidableEq, Repr

/-- Append one store-operation log entry. -/
def logOp (st : StoreState) (op : StoreOp) : StoreState :=
  { st with ops := op :: st.ops }

/-- Semantics of `.first(order_by created desc)` on a candidate list: stable
descending sort by `created`, head — i.e. the first candidate (in store order)
with maximal `created`. -/
def firstByCreatedDesc : List FlowRecord → Option FlowRecord
  | [] => none
  | r :: rs =>
    match firstByCreatedDesc rs with
    | none => some r
    | some b => if b.created > r.created then some b else some r

/-- Embeds `models.Flow.where({project_id eq, name eq}).first(order_by created
desc, selection version_group_id)` (src lines 38–45). -/
def FlowStore.findLatestByProjectAndName (st : StoreState) (pid : String)
    (nm : Option String) : Option FlowRecord × StoreState :=
  (firstByCreatedDesc
      (st.flows.filter fun r => decide (r.projectId = pid ∧ r.name = nm)),
    logOp st (StoreOp.queryByName pid nm))

/-- Embeds `models.Flow.where({version_group_id eq}).first(...)` (src lines
51–53), used only as an existence check; note it is not filtered by project. -/
def FlowStore.existsByVersionGroupId (st : StoreState) (g : VGid) :
    Bool × StoreState :=
  (st.flows.any fun r => decide (r.vg = g), logOp st (StoreOp.queryByVgid g))

/-- Modelled from the spec: the external store operation
`create(projectId, serializedFlow, versionGroupId?, description?,
idempotencyKey?, setScheduleActive) -> (flowId, versionGroupId)`
(spec §6; implements `api.flows.create_flow`, which is not part of src).
It assigns a fresh flow id, uses the supplied version-group id when it is set
(truthy) and mints a fresh one otherwise, and inserts the new record
unarchived. The description, idempotency key and schedule flag are passed
through and handled entirely by the store (spec §4.3/§9), so they do not
affect the modelled record. -/
def FlowStore.create (st : StoreState) (pid : String) (sf : SerializedFlow)
    (vgidArg : Option VGid) (_setScheduleActive : Bool)
    (_description _idempotencyKey : Option String) :
    (String × VGid) × StoreState :=
  let fid := mkFlowId st.nextId
  let vg : VGid :=
    match vgidArg with
    | some v => if vgTruthy v then v else Sum.inr st.nextVgid
    | none => Sum.inr st.nextVgid
  let newRec : FlowRecord :=
    { id := fid, projectId := pid, name := sf.name, vg := vg,
      archived := false, created := st.clock,
      flowGroupId := "fg-" ++ toString st.nextId }
  ((fid, vg),
    { flows := newRec :: st.flows, nextId := st.nextId + 1,
      nextVgid := st.nextVgid + 1, clock := st.clock + 1,
      ops := StoreOp.createOp fid :: st.ops })

/-- Mark one record archived (the store-side effect of a successful archive
request). -/
def setArch (r : FlowRecord) : FlowRecord := { r with archived := true }

/-- Modelled from the spec: `archive(flowId) -> bool` (spec §6; implements
`api.flows.archive_flow`, not part of src). On success the record(s) with the
given id get `archived := true`; on failure the store is unchanged. The call
is logged either way. -/
def FlowStore.archive (env : Env) (st : StoreState) (fid : String) :
    Bool × StoreState :=
  let st1 := logOp st (StoreOp.archiveOp fid)
  if env.archiveOk fid then
    (true,
      { st1 with
        flows := st1.flows.map fun r => if r.id = fid then setArch r else r })
  else (false, st1)

/-- Embeds the siblings query of the supersession step (src lines 68–76):
all records with the given version-group id, a different id than the new
flow, and `archived == false`; only ids are selected. -/
def FlowStore.findUnarchivedSiblings (st : StoreState) (g : VGid)
    (excl : String) : List String × StoreState :=
  ((st.flows.filter fun r =>
      decide (r.vg = g ∧ r.id ≠ excl ∧ r.archived = false)).map (fun r => r.id),
    logOp st (StoreOp.querySiblings g excl))

/-- Embeds the supersession fan-out loop (src lines 78–79): archive each
sibling in turn; the store's success indicator is discarded, exactly as the
source discards the awaited result. -/
def archiveLoop (env : Env) (st : StoreState) : List String → StoreState
  | [] => st
  | i :: is => archiveLoop env (FlowStore.archive env st i).2 is

/-- The `create_flow` mutation input (src lines 24–29): required
`serialized_flow` and `project_id` (a present-but-null value is `none`),
optional `version_group_id`, `description`, `idempotency_key`, and
`set_schedule_active` defaulting to true upstream. -/
structure CreateFlowInput where
  serialized_flow : SerializedFlow
  project_id : Option String
  version_group_id : Option VGid
  set_schedule_active : Bool
  description : Option String
  idempotency_key : Option String

/-- Embeds the version-group resolution step of `resolve_create_flow`
(src lines 36–55, spec §4.1 VersionGroupResolver): if the submitted
`version_group_id` is falsy, look up the latest flow with the same name in the
same project and reuse its group; otherwise do an existence check on the
supplied group id. Returns `(version_group_id, new_version_group)` and the
store state with the query logged. -/
def resolveVersionGroup (st : StoreState) (pid : String) (sf : SerializedFlow)
    (vg0 : Option VGid) : (Option VGid × Bool) × StoreState :=
  if pyTruthy vg0 then
    match vg0 with
    | some g =>
      let q := FlowStore.existsByVersionGroupId st g
      if q.1 then ((some g, false), q.2) else ((some g, true), q.2)
    | none => ((none, true), st)
  else
    let q := FlowStore.findLatestByProjectAndName st pid sf.name
    match q.1 with
    | some f => ((some f.vg, false), q.2)
    | none => ((vg0, true), q.2)

/-- Embeds the creation plus supersession phase of `resolve_create_flow`
(src lines 57–79, spec §4.2 VersionSupersessor composed after the store's
create): create the new record, then — only when the resolver's
`version_group_id` variable is truthy — query the unarchived siblings and
archive each of them. Returns the new flow id and the final store state. -/
def createAndSupersede (env : Env) (st : StoreState) (pid : String)
    (sf : SerializedFlow) (vg : Option VGid) (ssa : Bool)
    (descr ik : Option String) : String × StoreState :=
  let cr := FlowStore.create st pid sf vg ssa descr ik
  let fid := cr.1.1
  if pyTruthy vg then
    match vg with
    | some g =>
      let sq := FlowStore.findUnarchivedSiblings cr.2 g fid
      (fid, archiveLoop env sq.2 sq.1)
    | none => (fid, cr.2)
  else (fid, cr.2)

/-- Embeds `resolve_create_flow` (src lines 22–81): validate the project id
(`None` raises), resolve the version group, create the flow, supersede the
siblings, and return the new id. -/
def resolve_create_flow (env : Env) (input : CreateFlowInput)
    (st : StoreState) : Except ResolverError String × StoreState :=
  match input.project_id with
  | none => (Except.error ResolverError.invalidProjectId, st)
  | some pid =>
    let res :=
      resolveVersionGroup st pid input.serialized_flow input.version_group_id
    let cs :=
      createAndSupersede env res.2 pid input.serialized_flow res.1.1
        input.set_schedule_active input.description input.idempotency_key
    (Except.ok cs.1, cs.2)

/-- The version-group id of the record with the given flow id, if any. -/
def groupOf (st : StoreState) (fid : String) : Option VGid :=
  (st.flows.find? fun r => r.id == fid).map (fun r => r.vg)

/-- Number of unarchived records in the given version group. -/
def unarchivedCount (st : StoreState) (g : VGid) : Nat :=
  st.flows.countP fun r => decide (r.vg = g ∧ r.archived = false)

/-- Whether a logged store operation is an archive request. -/
def isArchiveOp : StoreOp → Bool
  | StoreOp.archiveOp _ => true
  | _ => false

/-- Whether a logged store operation is a supersession siblings query. -/
def isSiblingQuery : StoreOp → Bool
  | StoreOp.querySiblings _ _ => true
  | _ => false

/-! ## Pass-through mutation resolvers (src lines 84–206)

The collaborator operations they delegate to (`api.flows.delete_flow`,
`api.flows.set_schedule_active`, `api.flow_groups.*`, ...) are not part of
src; following the spec (§6), each is modelled by its success indicator /
returned id, supplied by the environment, plus a log entry recording that the
delegation was issued. -/

/-- Input dict of the pass-throughs that only carry a flow id. -/
structure FlowIdInput where
  flow_id : Option String

/-- Input dict of `register_tasks` / `register_edges`: an opaque serialized
payload plus the flow id. -/
structure RegisterInput where
  payload : List String
  flow_id : Option String

/-- Input dict of `update_flow_project`. -/
structure UpdateProjectInput where
  flow_id : Option String
  project_id : Option String

/-- Embeds `resolve_register_tasks` (src 84–97): rejects only a `None`
flow id, then delegates and returns a literal `success: True` (the awaited
result is discarded in the source). -/
def resolve_register_tasks (input : RegisterInput) (st : StoreState) :
    Except ResolverError PassResult × StoreState :=
  match input.flow_id with
  | none => (Except.error ResolverError.invalidFlowId, st)
  | some _ =>
    (Except.ok (PassResult.success true),
      logOp st (StoreOp.registerTasksOp input.flow_id))

/-- Embeds `resolve_register_edges` (src 100–113): same shape as
`register_tasks`. -/
def resolve_register_edges (input : RegisterInput) (st : StoreState) :
    Except ResolverError PassResult × StoreState :=
  match input.flow_id with
  | none => (Except.error ResolverError.invalidFlowId, st)
  | some _ =>
    (Except.ok (PassResult.success true),
      logOp st (StoreOp.registerEdgesOp input.flow_id))

/-- Embeds `resolve_delete_flow` (src 116–118): no precondition check,
direct delegation, result wrapped as a success flag. -/
def resolve_delete_flow (env : Env) (input : FlowIdInput) (st : StoreState) :
    Except ResolverError PassResult × StoreState :=
  (Except.ok (PassResult.success (env.deleteOk input.flow_id)),
    logOp st (StoreOp.deleteOp input.flow_id))

/-- Embeds `resolve_archive_flow` (src 121–123): no precondition check,
direct delegation to the store archive, result wrapped as a success flag.
Only the success indicator of the delegated call is modelled here (the
store-level effect of archiving is covered by `FlowStore.archive`). -/
def resolve_archive_flow (env : Env) (input : FlowIdInput) (st : StoreState) :
    Except ResolverError PassResult × StoreState :=
  (Except.ok (PassResult.success (env.archiveDelegateOk input.flow_id)),
    logOp st (StoreOp.archiveDelegateOp input.flow_id))

/-- Embeds `resolve_update_flow_project` (src 126–134): no precondition
check, direct delegation, result wrapped as an id. -/
def resolve_update_flow_project (env : Env) (input : UpdateProjectInput)
    (st : StoreState) : Except ResolverError PassResult × StoreState :=
  (Except.ok (PassResult.ident
      (env.updateProjectResult input.flow_id input.project_id)),
    logOp st (StoreOp.updateProjectOp input.flow_id input.project_id))

/-- Embeds the heartbeat/lazarus resolver shape (src 137–192): reject a falsy
flow id, look the flow up (rejecting when absent), then delegate on its flow
group. `enable` selects enable/disable; shared by the four resolvers. -/
def heartbeatLazarusShape (delegate : String → Bool × StoreOp)
    (input : FlowIdInput) (st : StoreState) :
    Except ResolverError PassResult × StoreState :=
  match input.flow_id with
  | none => (Except.error ResolverError.invalidFlowId, st)
  | some s =>
    if s.isEmpty then (Except.error ResolverError.invalidFlowId, st)
    else
      let st1 := logOp st (StoreOp.queryById input.flow_id)
      match st.flows.find? (fun r => r.id == s) with
      | none => (Except.error ResolverError.invalidFlowId, st1)
      | some f =>
        let (ok, op) := delegate f.flowGroupId
        (Except.ok (PassResult.success ok), logOp st1 op)

/-- Embeds `resolve_disable_heartbeat_for_flow` (src 137–147). -/
def resolve_disable_heartbeat_for_flow (env : Env) (input : FlowIdInput)
    (st : StoreState) : Except ResolverError PassResult × StoreState :=
  heartbeatLazarusShape
    (fun fg => (env.heartbeatOk false fg, StoreOp.heartbeatOp false fg)) input st

/-- Embeds `resolve_enable_heartbeat_for_flow` (src 150–160). -/
def resolve_enable_heartbeat_for_flow (env : Env) (input : FlowIdInput)
    (st : StoreState) : Except ResolverError PassResult × StoreState :=
  heartbeatLazarusShape
    (fun fg => (env.heartbeatOk true fg, StoreOp.heartbeatOp true fg)) input st

/-- Embeds `resolve_enable_flow_lazarus_process` (src 163–176). -/
def resolve_enable_flow_lazarus_process (env : Env) (input : FlowIdInput)
    (st : StoreState) : Except ResolverError PassResult × StoreState :=
  heartbeatLazarusShape
    (fun fg => (env.lazarusOk true fg, StoreOp.lazarusOp true fg)) input st

/-- Embeds `resolve_disable_flow_lazarus_process` (src 179–192). -/
def resolve_disable_flow_lazarus_process (env : Env) (input : FlowIdInput)
    (st : StoreState) : Except ResolverError PassResult × StoreState :=
  heartbeatLazarusShape
    (fun fg => (env.lazarusOk false fg, StoreOp.lazarusOp false fg)) input st

/-- Embeds `resolve_set_schedule_active` (src 195–199): no precondition
check, direct delegation, result wrapped as a success flag. -/
def resolve_set_schedule_active (env : Env) (input : FlowIdInput)
    (st : StoreState) : Except ResolverError PassResult × StoreState :=
  (Except.ok (PassResult.success (env.scheduleOk true input.flow_id)),
    logOp st (StoreOp.scheduleOp true input.flow_id))

/-- Embeds `resolve_set_schedule_inactive` (src 202–206). -/
def resolve_set_schedule_inactive (env : Env) (input : FlowIdInput)
    (st : StoreState) : Except ResolverError PassResult × StoreState :=
  (Except.ok (PassResult.success (env.scheduleOk false input.flow_id)),
    logOp st (StoreOp.scheduleOp false input.flow_id))

/-- Well-formedness of a store state for a single resolver call: the next
flow id and version-group id the store would mint are fresh, and every stored
version-group identifier is set (truthy) — the store only ever assigns
non-empty identifiers. -/
def WF (st : StoreState) : Prop :=
  ∀ r ∈ st.flows,
    r.id ≠ mkFlowId st.nextId ∧ r.vg ≠ Sum.inr st.nextVgid ∧ vgTruthy r.vg = true

instance (st : StoreState) : Decidable (WF st) := by
  unfold WF; infer_instance

/-- The record the store's create inserts, given the version-group id it
assigns (supplied or minted). -/
def newFlowRecord (st : StoreState) (pid : String) (sf : SerializedFlow)
    (v : VGid) : FlowRecord :=
  { id := mkFlowId st.nextId, projectId := pid, name := sf.name, vg := v,
    archived := false, created := st.clock,
    flowGroupId := "fg-" ++ toString st.nextId }

/-! ## Concrete fixtures used by witnesses and counterexamples -/

/-- Environment in which every collaborator call succeeds. -/
def envAll : Env :=
  { archiveOk := fun _ => true, deleteOk := fun _ => true,
    archiveDelegateOk := fun _ => true,
    updateProjectResult := fun _ _ => "moved-id",
    scheduleOk := fun _ _ => true,
    heartbeatOk := fun _ _ => true, lazarusOk := fun _ _ => true }

/-- An empty store. -/
def stEmpty : StoreState :=
  { flows := [], nextId := 0, nextVgid := 0, clock := 0, ops := [] }

/-- An unarchived flow "etl" in project P1, version group G1. -/
def recF1 : FlowRecord :=
  { id := "F1", projectId := "P1", name := some "etl", vg := Sum.inl "G1",
    archived := false, created := 0, flowGroupId := "fgF1" }

/-- A second, more recent unarchived version in the same group. -/
def recF2 : FlowRecord :=
  { recF1 with id := "F2", created := 1, flowGroupId := "fgF2" }

/-- Store holding only `recF1`. -/
def stOne : StoreState :=
  { flows := [recF1], nextId := 0, nextVgid := 0, clock := 1, ops := [] }

/-- Store holding `recF1` and `recF2`. -/
def stTwo : StoreState :=
  { flows := [recF1, recF2], nextId := 0, nextVgid := 0, clock := 2, ops := [] }

/-- Submission of "etl" to P1 without a version-group id. -/
def subEtl : CreateFlowInput :=
  { serialized_flow := { name := some "etl" }, project_id := some "P1",
    version_group_id := none, set_schedule_active := true,
    description := none, idempotency_key := none }

/-- Submission of "etl" to P1 with the explicit version-group id G1. -/
def subEtlG1 : CreateFlowInput :=
  { subEtl with version_group_id := some (Sum.inl "G1") }

/-- Submission of a name matching nothing, without a version-group id. -/
def subNew : CreateFlowInput :=
  { subEtl with serialized_flow := { name := some "brand-new" } }

/-- Environment in which archiving flow F1 fails and all other collaborator
calls succeed. -/
def envFailF1 : Env :=
  { envAll with archiveOk := fun i => decide (i ≠ "F1") }

/-- Submission with a null project id. -/
def subNoPid : CreateFlowInput := { subEtl with project_id := none }

/-- Submission with an empty-string project id. -/
def subEmptyPid : CreateFlowInput := { subEtl with project_id := some "" }

/-- Submission naming a version group that exists nowhere in the store. -/
def subEtlG9 : CreateFlowInput :=
  { subEtl with version_group_id := some (Sum.inl "G9") }

/-! ## Basic lemmas about the embedded store operations -/

theorem setArch_id (r : FlowRecord) : (setArch r).id = r.id := rfl

theorem setArch_vg (r : FlowRecord) : (setArch r).vg = r.vg := rfl

theorem setArch_archived (r : FlowRecord) : (setArch r).archived = true := rfl

theorem setArch_idem (r : FlowRecord) : setArch (setArch r) = setArch r := rfl

theorem firstByCreatedDesc_cons_isSome (r : FlowRecord) (rs : List FlowRecord) :
    (firstByCreatedDesc (r :: rs)).isSome = true := by
  simp only [firstByCreatedDesc]
  cases firstByCreatedDesc rs with
  | none => rfl
  | some b => by_cases h : b.created > r.created <;> simp [h]

theorem firstByCreatedDesc_eq_nil {rs : List FlowRecord}
    (h : firstByCreatedDesc rs = none) : rs = [] := by
  cases rs with
  | nil => rfl
  | cons a as =>
    have hs := firstByCreatedDesc_cons_isSome a as
    rw [h] at hs
    cases hs

/-- `firstByCreatedDesc` returns a member with maximal `created`, namely the
first such member in store order (the head of the stable descending sort). -/
theorem firstByCreatedDesc_spec {l : List FlowRecord} {f : FlowRecord}
    (h : firstByCreatedDesc l = some f) :
    f ∈ l ∧ (∀ r ∈ l, r.created ≤ f.created) ∧
      ∃ l1 l2, l = l1 ++ f :: l2 ∧ ∀ r ∈ l1, r.created < f.created := by
  induction l generalizing f with
  | nil => simp [firstByCreatedDesc] at h
  | cons r rs ih =>
    simp only [firstByCreatedDesc] at h
    split at h
    · next hrs =>
      have hnil := firstByCreatedDesc_eq_nil hrs
      subst hnil
      injection h with h2
      subst h2
      refine ⟨List.mem_singleton_self r, ?_, [], [], rfl, ?_⟩ <;> simp
    · next b hrs =>
      obtain ⟨hbmem, hbmax, l1, l2, hdec, hlt⟩ := ih hrs
      by_cases hbr : b.created > r.created
      · rw [if_pos hbr] at h
        injection h with h2
        subst h2
        refine ⟨List.mem_cons_of_mem r hbmem, ?_, r :: l1, l2, ?_, ?_⟩
        · intro x hx
          rcases List.mem_cons.mp hx with hx | hx
          · subst hx; exact Nat.le_of_lt hbr
          · exact hbmax x hx
        · simp [hdec]
        · intro x hx
          rcases List.mem_cons.mp hx with hx | hx
          · subst hx; exact hbr
          · exact hlt x hx
      · rw [if_neg hbr] at h
        injection h with h2
        subst h2
        refine ⟨List.mem_cons_self r rs, ?_, [], rs, rfl, ?_⟩
        · intro x hx
          rcases List.mem_cons.mp hx with hx | hx
          · subst hx; exact Nat.le_refl _
          · exact Nat.le_trans (hbmax x hx) (Nat.le_of_not_lt hbr)
        · simp

theorem archive_flows_of_ok {env : Env} {i : String} (st : StoreState)
    (h : env.archiveOk i = true) :
    (FlowStore.archive env st i).2.flows
      = st.flows.map fun r => if r.id = i then setArch r else r := by
  simp [FlowStore.archive, h, logOp]

theorem archive_flows_of_fail {env : Env} {i : String} (st : StoreState)
    (h : env.archiveOk i = false) :
    (FlowStore.archive env st i).2.flows = st.flows := by
  simp [FlowStore.archive, h, logOp]

theorem archive_ops (env : Env) (st : StoreState) (i : String) :
    (FlowStore.archive env st i).2.ops = StoreOp.archiveOp i :: st.ops := by
  unfold FlowStore.archive
  by_cases h : env.archiveOk i <;> simp [h, logOp]

/-- With every archive call succeeding, the fan-out loop marks exactly the
records whose id occurs in the sibling list. -/
theorem archiveLoop_flows_allOk (env : Env) (ids : List String)
    (hok : ∀ j ∈ ids, env.archiveOk j = true) (st : StoreState) :
    (archiveLoop env st ids).flows
      = st.flows.map fun r => if r.id ∈ ids then setArch r else r := by
  induction ids generalizing st with
  | nil =>
    simp only [archiveLoop, List.not_mem_nil, if_false]
    exact (List.map_id' st.flows).symm
  | cons i is ih =>
    have hi : env.archiveOk i = true := hok i (List.mem_cons_self i is)
    have hok' : ∀ j ∈ is, env.archiveOk j = true :=
      fun j hj => hok j (List.mem_cons_of_mem i hj)
    simp only [archiveLoop]
    rw [ih hok', archive_flows_of_ok st hi, List.map_map]
    refine List.map_congr_left ?_
    intro r _
    by_cases h1 : r.id = i
    · by_cases h2 : r.id ∈ is <;>
        simp [Function.comp, h1, h2, setArch_id, setArch_idem, List.mem_cons]
    · by_cases h2 : r.id ∈ is <;>
        simp [Function.comp, h1, h2, List.mem_cons]

/-- The fan-out loop only prepends archive requests to the operation log. -/
theorem archiveLoop_ops_append (env : Env) (ids : List String)
    (st : StoreState) :
    ∃ l, (archiveLoop env st ids).ops = l ++ st.ops
      ∧ ∀ op ∈ l, isArchiveOp op = true := by
  induction ids generalizing st with
  | nil => exact ⟨[], rfl, by simp⟩
  | cons i is ih =>
    obtain ⟨l, hl, harch⟩ := ih (FlowStore.archive env st i).2
    refine ⟨l ++ [StoreOp.archiveOp i], ?_, ?_⟩
    · simp only [archiveLoop]
      rw [hl, archive_ops, List.append_assoc]
      rfl
    · intro op hop
      rcases List.mem_append.mp hop with hop | hop
      · exact harch op hop
      · simp at hop
        subst hop
        rfl

theorem archive_preserves_marked (env : Env) (st : StoreState) (j i : String)
    (h : ∀ r ∈ st.flows, r.id = i → r.archived = true) :
    ∀ r ∈ (FlowStore.archive env st j).2.flows, r.id = i → r.archived = true := by
  intro r hr hid
  by_cases hj : env.archiveOk j = true
  · rw [archive_flows_of_ok st hj] at hr
    obtain ⟨r0, hr0, hr0e⟩ := List.mem_map.mp hr
    by_cases h0 : r0.id = j
    · rw [if_pos h0] at hr0e
      rw [← hr0e]
      rfl
    · rw [if_neg h0] at hr0e
      subst hr0e
      exact h r0 hr0 hid
  · rw [archive_flows_of_fail st (Bool.eq_false_iff.mpr hj)] at hr
    exact h r hr hid

theorem archiveLoop_preserves_marked (env : Env) (ids : List String)
    (st : StoreState) (i : String)
    (h : ∀ r ∈ st.flows, r.id = i → r.archived = true) :
    ∀ r ∈ (archiveLoop env st ids).flows, r.id = i → r.archived = true := by
  induction ids generalizing st with
  | nil => exact h
  | cons j is ih =>
    exact ih _ (archive_preserves_marked env st j i h)

/-- Best-effort fan-out: whatever the outcomes on the other siblings, a
sibling whose own archive call succeeds ends archived. -/
theorem archiveLoop_marks (env : Env) (ids : List String) (st : StoreState)
    (i : String) (hmem : i ∈ ids) (hok : env.archiveOk i = true) :
    ∀ r ∈ (archiveLoop env st ids).flows, r.id = i → r.archived = true := by
  induction ids generalizing st with
  | nil => cases hmem
  | cons j is ih =>
    rcases List.mem_cons.mp hmem with h | h
    · subst h
      have hbase : ∀ r ∈ (FlowStore.archive env st i).2.flows,
          r.id = i → r.archived = true := by
        intro r hr hid
        rw [archive_flows_of_ok st hok] at hr
        obtain ⟨r0, hr0, hr0e⟩ := List.mem_map.mp hr
        by_cases h0 : r0.id = i
        · rw [if_pos h0] at hr0e
          rw [← hr0e]
          rfl
        · rw [if_neg h0] at hr0e
          subst hr0e
          exact absurd hid h0
      exact archiveLoop_preserves_marked env is _ i hbase
    · exact ih _ h

/-- Version-group resolution is read-only on the store: it only appends to
the operation log. -/
theorem resolveVersionGroup_state (st : StoreState) (pid : String)
    (sf : SerializedFlow) (vg0 : Option VGid) :
    (resolveVersionGroup st pid sf vg0).2.flows = st.flows
    ∧ (resolveVersionGroup st pid sf vg0).2.nextId = st.nextId
    ∧ (resolveVersionGroup st pid sf vg0).2.nextVgid = st.nextVgid
    ∧ (resolveVersionGroup st pid sf vg0).2.clock = st.clock := by
  unfold resolveVersionGroup FlowStore.existsByVersionGroupId
    FlowStore.findLatestByProjectAndName logOp
  split
  · split
    · dsimp only
      split <;> exact ⟨rfl, rfl, rfl, rfl⟩
    · exact ⟨rfl, rfl, rfl, rfl⟩
  · dsimp only
    split <;> exact ⟨rfl, rfl, rfl, rfl⟩

/-- The resolution step issues no archive request and no siblings query. -/
theorem resolveVersionGroup_ops (st : StoreState) (pid : String)
    (sf : SerializedFlow) (vg0 : Option VGid) :
    (resolveVersionGroup st pid sf vg0).2.ops.countP isArchiveOp
        = st.ops.countP isArchiveOp
    ∧ (resolveVersionGroup st pid sf vg0).2.ops.countP isSiblingQuery
        = st.ops.countP isSiblingQuery := by
  unfold resolveVersionGroup FlowStore.existsByVersionGroupId
    FlowStore.findLatestByProjectAndName logOp
  split
  · split
    · dsimp only
      split <;> simp [List.countP_cons, isArchiveOp, isSiblingQuery]
    · exact ⟨rfl, rfl⟩
  · dsimp only
    split <;> simp [List.countP_cons, isArchiveOp, isSiblingQuery]

/-- Well-formedness only depends on the flows and the mint counters. -/
theorem WF_transfer {st st' : StoreState} (h : WF st)
    (h1 : st'.flows = st.flows) (h2 : st'.nextId = st.nextId)
    (h3 : st'.nextVgid = st.nextVgid) : WF st' := by
  intro r hr
  rw [h1] at hr
  rw [h2, h3]
  exact h r hr

/-- The flow id returned by create-and-supersede is the one the store mints,
independently of the environment's archive outcomes. -/
theorem createAndSupersede_fst (env : Env) (st : StoreState) (pid : String)
    (sf : SerializedFlow) (vg : Option VGid) (ssa : Bool)
    (d ik : Option String) :
    (createAndSupersede env st pid sf vg ssa d ik).1 = mkFlowId st.nextId := by
  cases vg with
  | none => rfl
  | some v =>
    by_cases h : vgTruthy v = true <;>
      simp [createAndSupersede, FlowStore.create, pyTruthy, h,
        FlowStore.findUnarchivedSiblings]

/-- When the resolver's version-group value is falsy, create-and-supersede is
just the create step: the store mints a fresh group for the new record and no
siblings query or archive request is issued. -/
theorem createAndSupersede_falsy (env : Env) (st : StoreState) (pid : String)
    (sf : SerializedFlow) (vg : Option VGid) (ssa : Bool) (d ik : Option String)
    (h : pyTruthy vg = false) :
    createAndSupersede env st pid sf vg ssa d ik
      = (mkFlowId st.nextId,
          { flows := newFlowRecord st pid sf (Sum.inr st.nextVgid) :: st.flows,
            nextId := st.nextId + 1, nextVgid := st.nextVgid + 1,
            clock := st.clock + 1,
            ops := StoreOp.createOp (mkFlowId st.nextId) :: st.ops }) := by
  cases vg with
  | none => rfl
  | some v =>
    have hv : vgTruthy v = false := by simpa [pyTruthy] using h
    simp [createAndSupersede, FlowStore.create, pyTruthy, hv, newFlowRecord]

/-- When the resolver's version-group value is a truthy id `g`,
create-and-supersede creates the record under `g` and then runs the archive
fan-out over the unarchived siblings of `g`. -/
theorem createAndSupersede_truthy (env : Env) (st : StoreState) (pid : String)
    (sf : SerializedFlow) (g : VGid) (ssa : Bool) (d ik : Option String)
    (h : vgTruthy g = true) :
    createAndSupersede env st pid sf (some g) ssa d ik
      = (mkFlowId st.nextId,
          archiveLoop env
            { flows := newFlowRecord st pid sf g :: st.flows,
              nextId := st.nextId + 1, nextVgid := st.nextVgid + 1,
              clock := st.clock + 1,
              ops := StoreOp.querySiblings g (mkFlowId st.nextId)
                :: StoreOp.createOp (mkFlowId st.nextId) :: st.ops }
            (((newFlowRecord st pid sf g :: st.flows).filter fun r =>
                decide (r.vg = g ∧ r.id ≠ mkFlowId st.nextId
                  ∧ r.archived = false)).map (fun r => r.id))) := by
  simp [createAndSupersede, FlowStore.create, pyTruthy, h,
    FlowStore.findUnarchivedSiblings, logOp, newFlowRecord]

/-- After the fan-out over the unarchived siblings of the new record's group
(all archive calls succeeding), the new record is the unique unarchived
member of that group. -/
theorem supersede_marks_group (env : Env) (old : List FlowRecord)
    (newRec : FlowRecord) (v : VGid) (st3 : StoreState) (sibs : List String)
    (hflows : st3.flows = newRec :: old)
    (hsibs : sibs = ((newRec :: old).filter fun r =>
        decide (r.vg = v ∧ r.id ≠ newRec.id ∧ r.archived = false)).map
          (fun r => r.id))
    (hok : ∀ i, env.archiveOk i = true)
    (hnv : newRec.vg = v) (hnu : newRec.archived = false)
    (hoid : ∀ r ∈ old, r.id ≠ newRec.id) :
    groupOf (archiveLoop env st3 sibs) newRec.id = some v
    ∧ unarchivedCount (archiveLoop env st3 sibs) v = 1
    ∧ ∀ r ∈ (archiveLoop env st3 sibs).flows,
        r.vg = v → r.archived = false → r.id = newRec.id := by
  have hok' : ∀ j ∈ sibs, env.archiveOk j = true := fun j _ => hok j
  have hmap := archiveLoop_flows_allOk env sibs hok' st3
  rw [hflows] at hmap
  have hfid_not : newRec.id ∉ sibs := by
    intro hmem
    rw [hsibs] at hmem
    obtain ⟨r, hrmem, hrid⟩ := List.mem_map.mp hmem
    have hp := of_decide_eq_true (List.mem_filter.mp hrmem).2
    exact hp.2.1 hrid
  have hFnew : (if newRec.id ∈ sibs then setArch newRec else newRec) = newRec :=
    if_neg hfid_not
  have hold : ∀ r ∈ old,
      (if r.id ∈ sibs then setArch r else r).vg = v →
      (if r.id ∈ sibs then setArch r else r).archived = true := by
    intro r hr hvg
    by_cases hin : r.id ∈ sibs
    · rw [if_pos hin]
      rfl
    · rw [if_neg hin] at hvg ⊢
      by_contra harch
      have harch' : r.archived = false := Bool.not_eq_true _ ▸ harch
      apply hin
      rw [hsibs]
      exact List.mem_map.mpr
        ⟨r, List.mem_filter.mpr ⟨List.mem_cons_of_mem _ hr,
          decide_eq_true ⟨hvg, hoid r hr, harch'⟩⟩, rfl⟩
  refine ⟨?_, ?_, ?_⟩
  · unfold groupOf
    rw [hmap, List.map_cons, hFnew,
      List.find?_cons_of_pos _ (by simp)]
    simp [hnv]
  · unfold unarchivedCount
    rw [hmap, List.countP_map, List.countP_cons]
    have h1 : (fun r => decide (r.vg = v ∧ r.archived = false))
        ((fun r => if r.id ∈ sibs then setArch r else r) newRec) = true := by
      dsimp only
      rw [hFnew]
      exact decide_eq_true ⟨hnv, hnu⟩
    have h0 : old.countP ((fun r => decide (r.vg = v ∧ r.archived = false)) ∘
        (fun r => if r.id ∈ sibs then setArch r else r)) = 0 := by
      refine List.countP_eq_zero.mpr ?_
      intro r hr hq
      obtain ⟨hvg, hun⟩ := of_decide_eq_true hq
      have := hold r hr hvg
      rw [this] at hun
      cases hun
    rw [h0]
    simp only [Function.comp_apply] at h1 ⊢
    simp [h1]
  · intro r' hr' hvg hun
    rw [hmap] at hr'
    obtain ⟨r0, hr0, hF⟩ := List.mem_map.mp hr'
    rcases List.mem_cons.mp hr0 with hr0n | hr0old
    · subst hr0n
      rw [hFnew] at hF
      rw [← hF]
    · have := hold r0 hr0old
      rw [hF] at this
      rw [this hvg] at hun
      cases hun

/-- Core of the at-most-one-active invariant: for any resolved version-group
value, create-and-supersede on a well-formed store with all archive calls
succeeding leaves exactly one unarchived record — the new flow — in the new
flow's version group. -/
theorem createAndSupersede_one_active (env : Env) (st : StoreState)
    (pid : String) (sf : SerializedFlow) (vg : Option VGid) (ssa : Bool)
    (d ik : Option String) (hwf : WF st)
    (hok : ∀ i, env.archiveOk i = true) :
    ∃ g, groupOf (createAndSupersede env st pid sf vg ssa d ik).2
          (createAndSupersede env st pid sf vg ssa d ik).1 = some g
      ∧ unarchivedCount (createAndSupersede env st pid sf vg ssa d ik).2 g = 1
      ∧ ∀ r ∈ (createAndSupersede env st pid sf vg ssa d ik).2.flows,
          r.vg = g → r.archived = false →
          r.id = (createAndSupersede env st pid sf vg ssa d ik).1 := by
  by_cases hpy : pyTruthy vg = true
  · -- the resolver knows a truthy version-group id: the fan-out runs
    cases vg with
    | none => simp [pyTruthy] at hpy
    | some v =>
      have hv : vgTruthy v = true := by simpa [pyTruthy] using hpy
      rw [createAndSupersede_truthy env st pid sf v ssa d ik hv]
      have key := supersede_marks_group env st.flows
        (newFlowRecord st pid sf v) v
        { flows := newFlowRecord st pid sf v :: st.flows,
          nextId := st.nextId + 1, nextVgid := st.nextVgid + 1,
          clock := st.clock + 1,
          ops := StoreOp.querySiblings v (mkFlowId st.nextId)
            :: StoreOp.createOp (mkFlowId st.nextId) :: st.ops }
        (((newFlowRecord st pid sf v :: st.flows).filter fun r =>
            decide (r.vg = v ∧ r.id ≠ mkFlowId st.nextId
              ∧ r.archived = false)).map (fun r => r.id))
        rfl rfl hok rfl rfl (fun r hr => (hwf r hr).1)
      exact ⟨v, key.1, key.2.1, key.2.2⟩
  · -- falsy resolved id: no fan-out; the store mints a fresh group
    have hpy' : pyTruthy vg = false := Bool.not_eq_true _ ▸ hpy
    rw [createAndSupersede_falsy env st pid sf vg ssa d ik hpy']
    refine ⟨Sum.inr st.nextVgid, ?_, ?_, ?_⟩
    · unfold groupOf
      rw [List.find?_cons_of_pos _ (by simp [newFlowRecord])]
      rfl
    · unfold unarchivedCount
      rw [List.countP_cons]
      have h0 : st.flows.countP
          (fun r => decide (r.vg = Sum.inr st.nextVgid ∧ r.archived = false))
            = 0 := by
        refine List.countP_eq_zero.mpr ?_
        intro r hr hq
        exact (hwf r hr).2.1 (of_decide_eq_true hq).1
      rw [h0]
      simp [newFlowRecord]
    · intro r hr hvg _
      rcases List.mem_cons.mp hr with hr | hr
      · rw [hr]
        rfl
      · exact absurd hvg (hwf r hr).2.1

/-- A resolution outcome `(some g, true)` with a truthy `g` can only come
from the explicit-group existence check finding nothing: no stored record
carries `g`. -/
theorem resolveVersionGroup_explicit_new (st : StoreState) (pid : String)
    (sf : SerializedFlow) (vg0 : Option VGid) (g : VGid)
    (h : (resolveVersionGroup st pid sf vg0).1 = (some g, true))
    (htr : vgTruthy g = true) :
    ∀ r ∈ st.flows, r.vg ≠ g := by
  unfold resolveVersionGroup at h
  split at h
  · next hpy =>
    cases vg0 with
    | none => simp [pyTruthy] at hpy
    | some v =>
      dsimp only at h
      split at h
      · next hfound => cases h
      · next hfound =>
        injection h with h1 h2
        injection h1 with h1
        subst h1
        intro r hr hvg
        exact hfound (List.any_eq_true.mpr ⟨r, hr, decide_eq_true hvg⟩)
  · next hpy =>
    dsimp only at h
    split at h
    · next f hf => cases h
    · next hf =>
      injection h with h1 h2
      subst h1
      exact absurd htr (by simpa [pyTruthy] using hpy)

/-- In the falsy case the only operation create-and-supersede issues is the
create itself. -/
theorem createAndSupersede_ops_falsy (env : Env) (st : StoreState)
    (pid : String) (sf : SerializedFlow) (vg : Option VGid) (ssa : Bool)
    (d ik : Option String) (h : pyTruthy vg = false) :
    (createAndSupersede env st pid sf vg ssa d ik).2.ops
      = StoreOp.createOp (mkFlowId st.nextId) :: st.ops := by
  rw [createAndSupersede_falsy env st pid sf vg ssa d ik h]

/-- If no stored record carries the truthy group id `g`, the supersession
fan-out finds no sibling and issues no archive request. -/
theorem createAndSupersede_ops_no_member (env : Env) (st : StoreState)
    (pid : String) (sf : SerializedFlow) (g : VGid) (ssa : Bool)
    (d ik : Option String) (htr : vgTruthy g = true)
    (hno : ∀ r ∈ st.flows, r.vg ≠ g) :
    (createAndSupersede env st pid sf (some g) ssa d ik).2.ops
      = StoreOp.querySiblings g (mkFlowId st.nextId)
        :: StoreOp.createOp (mkFlowId st.nextId) :: st.ops := by
  rw [createAndSupersede_truthy env st pid sf g ssa d ik htr]
  have hnil : ((newFlowRecord st pid sf g :: st.flows).filter fun r =>
      decide (r.vg = g ∧ r.id ≠ mkFlowId st.nextId ∧ r.archived = false)) = [] := by
    rw [List.filter_eq_nil_iff]
    intro r hr
    rcases List.mem_cons.mp hr with hr | hr
    · subst hr
      simp [newFlowRecord]
    · simp [hno r hr]
  rw [hnil]
  rfl

/-- In the truthy case the supersession siblings query is always issued, with
the resolved group id and the new flow's id. -/
theorem createAndSupersede_sibling_query (env : Env) (st : StoreState)
    (pid : String) (sf : SerializedFlow) (g : VGid) (ssa : Bool)
    (d ik : Option String) (htr : vgTruthy g = true) :
    StoreOp.querySiblings g (mkFlowId st.nextId)
      ∈ (createAndSupersede env st pid sf (some g) ssa d ik).2.ops := by
  rw [createAndSupersede_truthy env st pid sf g ssa d ik htr]
  obtain ⟨l, hl, _⟩ := archiveLoop_ops_append env
    (((newFlowRecord st pid sf g :: st.flows).filter fun r =>
        decide (r.vg = g ∧ r.id ≠ mkFlowId st.nextId
          ∧ r.archived = false)).map (fun r => r.id))
    { flows := newFlowRecord st pid sf g :: st.flows,
      nextId := st.nextId + 1, nextVgid := st.nextVgid + 1,
      clock := st.clock + 1,
      ops := StoreOp.querySiblings g (mkFlowId st.nextId)
        :: StoreOp.createOp (mkFlowId st.nextId) :: st.ops }
  rw [hl]
  exact List.mem_append.mpr (Or.inr (List.mem_cons_self _ _))

/-- A null project id short-circuits the whole resolver: error, store
untouched. -/
theorem resolve_create_flow_none (env : Env) (input : CreateFlowInput)
    (st : StoreState) (hpid : input.project_id = none) :
    resolve_create_flow env input st
      = (Except.error ResolverError.invalidProjectId, st) := by
  unfold resolve_create_flow
  rw [hpid]

/-- With a non-null project id the resolver is resolution followed by
create-and-supersede. -/
theorem resolve_create_flow_some (env : Env) (input : CreateFlowInput)
    (st : StoreState) (pid : String) (hpid : input.project_id = some pid) :
    resolve_create_flow env input st
      = (Except.ok (createAndSupersede env
            (resolveVersionGroup st pid input.serialized_flow
              input.version_group_id).2 pid input.serialized_flow
            (resolveVersionGroup st pid input.serialized_flow
              input.version_group_id).1.1
            input.set_schedule_active input.description
            input.idempotency_key).1,
          (createAndSupersede env
            (resolveVersionGroup st pid input.serialized_flow
              input.version_group_id).2 pid input.serialized_flow
            (resolveVersionGroup st pid input.serialized_flow
              input.version_group_id).1.1
            input.set_schedule_active input.description
            input.idempotency_key).2) := by
  unfold resolve_create_flow
  rw [hpid]

/-! ## The claims -/

/-- C4 (amended): only a null `projectId` is rejected; the rejection happens
before any store operation (the store state, including the operation log, is
returned untouched). An empty-string `projectId` is not rejected (see the
counterexample) and an absent key would raise a lookup error upstream of this
check. -/
theorem null_project_id_fails_fast (env : Env) (input : CreateFlowInput)
    (st : StoreState) (h : input.project_id = none) :
    resolve_create_flow env input st
      = (Except.error ResolverError.invalidProjectId, st) :=
  resolve_create_flow_none env input st h

/-- Witness for C4's amended theorem at a concrete input. -/
theorem null_project_id_fails_fast_witness :
    subNoPid.project_id = none
    ∧ resolve_create_flow envAll subNoPid stOne
        = (Except.error ResolverError.invalidProjectId, stOne) :=
  ⟨rfl, null_project_id_fails_fast envAll subNoPid stOne rfl⟩

/-- C4 counterexample: a submission whose `projectId` is present but empty is
not rejected — the name query and the create are issued against the store and
the call returns the new flow id. -/
theorem empty_project_id_not_rejected_cex :
    (resolve_create_flow envAll subEmptyPid stEmpty).1 = Except.ok "flow-0"
    ∧ (resolve_create_flow envAll subEmptyPid stEmpty).2.ops
        = [StoreOp.createOp "flow-0", StoreOp.queryByName "" (some "etl")] :=
  ⟨rfl, rfl⟩

/-- C5: with an unset (falsy) `versionGroupId` and at least one flow of the
same name in the same project (archived or not), resolution returns the
version-group id of the candidate the store query yields: a member of the
candidate set with maximal `createdAt`, the first such in store order
(descending sort, first taken), with `isNewGroup = false`. -/
theorem resolve_reuses_latest_matching_group (st : StoreState) (pid : String)
    (sf : SerializedFlow) (vg0 : Option VGid) (hfalsy : pyTruthy vg0 = false)
    (hne : st.flows.filter
        (fun r => decide (r.projectId = pid ∧ r.name = sf.name)) ≠ []) :
    ∃ f, firstByCreatedDesc (st.flows.filter
          (fun r => decide (r.projectId = pid ∧ r.name = sf.name))) = some f
      ∧ (resolveVersionGroup st pid sf vg0).1 = (some f.vg, false)
      ∧ f ∈ st.flows.filter
          (fun r => decide (r.projectId = pid ∧ r.name = sf.name))
      ∧ (∀ r ∈ st.flows.filter
            (fun r => decide (r.projectId = pid ∧ r.name = sf.name)),
          r.created ≤ f.created)
      ∧ ∃ l1 l2, st.flows.filter
            (fun r => decide (r.projectId = pid ∧ r.name = sf.name))
              = l1 ++ f :: l2
          ∧ ∀ r ∈ l1, r.created < f.created := by
  cases hf : firstByCreatedDesc (st.flows.filter
      fun r => decide (r.projectId = pid ∧ r.name = sf.name)) with
  | none => exact absurd (firstByCreatedDesc_eq_nil hf) hne
  | some f =>
    obtain ⟨hmem, hmax, l1, l2, hdec, hlt⟩ := firstByCreatedDesc_spec hf
    refine ⟨f, rfl, ?_, hmem, hmax, l1, l2, hdec, hlt⟩
    unfold resolveVersionGroup
    rw [if_neg (by simp [hfalsy])]
    dsimp only [FlowStore.findLatestByProjectAndName]
    rw [hf]

/-- Witness for C5 at a concrete store with two same-name versions. -/
theorem resolve_reuses_latest_matching_group_witness :
    pyTruthy none = false
    ∧ stTwo.flows.filter
        (fun r => decide (r.projectId = "P1" ∧ r.name = some "etl")) ≠ []
    ∧ ∃ f, firstByCreatedDesc (stTwo.flows.filter
          (fun r => decide (r.projectId = "P1" ∧ r.name = some "etl")))
            = some f
      ∧ (resolveVersionGroup stTwo "P1" ⟨some "etl"⟩ none).1 = (some f.vg, false)
      ∧ f ∈ stTwo.flows.filter
          (fun r => decide (r.projectId = "P1" ∧ r.name = some "etl"))
      ∧ (∀ r ∈ stTwo.flows.filter
            (fun r => decide (r.projectId = "P1" ∧ r.name = some "etl")),
          r.created ≤ f.created)
      ∧ ∃ l1 l2, stTwo.flows.filter
            (fun r => decide (r.projectId = "P1" ∧ r.name = some "etl"))
              = l1 ++ f :: l2
          ∧ ∀ r ∈ l1, r.created < f.created :=
  ⟨rfl, by decide,
    resolve_reuses_latest_matching_group stTwo "P1" ⟨some "etl"⟩ none rfl
      (by decide)⟩

/-- C6: with a set (truthy) `versionGroupId`, the resolver keeps the supplied
id and reports a new group exactly when no stored record — in any project —
carries that id. -/
theorem resolve_honors_explicit_group (st : StoreState) (pid : String)
    (sf : SerializedFlow) (g : VGid) (htr : vgTruthy g = true) :
    ((¬ ∃ r ∈ st.flows, r.vg = g) →
        (resolveVersionGroup st pid sf (some g)).1 = (some g, true))
    ∧ ((∃ r ∈ st.flows, r.vg = g) →
        (resolveVersionGroup st pid sf (some g)).1 = (some g, false)) := by
  constructor
  · intro h
    have hany : (st.flows.any fun r => decide (r.vg = g)) = false := by
      cases hval : st.flows.any (fun r => decide (r.vg = g)) with
      | false => rfl
      | true =>
        obtain ⟨r, hr, hd⟩ := List.any_eq_true.mp hval
        exact absurd ⟨r, hr, of_decide_eq_true hd⟩ h
    simp [resolveVersionGroup, pyTruthy, htr,
      FlowStore.existsByVersionGroupId, hany]
  · intro h
    obtain ⟨r, hr, hvg⟩ := h
    have hany : (st.flows.any fun r => decide (r.vg = g)) = true :=
      List.any_eq_true.mpr ⟨r, hr, decide_eq_true hvg⟩
    simp [resolveVersionGroup, pyTruthy, htr,
      FlowStore.existsByVersionGroupId, hany]

/-- Witness for C6: an unknown explicit group yields a new group, a known one
(in the same store) is reused — including across projects. -/
theorem resolve_honors_explicit_group_witness :
    vgTruthy (Sum.inl "G9") = true
    ∧ (resolveVersionGroup stOne "P1" ⟨some "etl"⟩
        (some (Sum.inl "G9"))).1 = (some (Sum.inl "G9"), true)
    ∧ (resolveVersionGroup stOne "P2" ⟨some "other"⟩
        (some (Sum.inl "G1"))).1 = (some (Sum.inl "G1"), false) :=
  ⟨rfl,
    (resolve_honors_explicit_group stOne "P1" ⟨some "etl"⟩
      (Sum.inl "G9") rfl).1 (by decide),
    (resolve_honors_explicit_group stOne "P2" ⟨some "other"⟩
      (Sum.inl "G1") rfl).2 (by decide)⟩

/-- C7: with an unset `versionGroupId` and no same-name flow in the project,
resolution yields `(none, isNewGroup = true)` — the identifier stays unset —
and the store then mints the fresh group id for the created record. -/
theorem resolve_mints_new_lineage (env : Env) (input : CreateFlowInput)
    (st : StoreState) (pid : String) (hpid : input.project_id = some pid)
    (hvg : input.version_group_id = none)
    (hnomatch : st.flows.filter
        (fun r => decide (r.projectId = pid
          ∧ r.name = input.serialized_flow.name)) = []) :
    (resolveVersionGroup st pid input.serialized_flow none).1 = (none, true)
    ∧ (resolve_create_flow env input st).1 = Except.ok (mkFlowId st.nextId)
    ∧ groupOf (resolve_create_flow env input st).2 (mkFlowId st.nextId)
        = some (Sum.inr st.nextVgid) := by
  have hres : resolveVersionGroup st pid input.serialized_flow none
      = ((none, true),
          logOp st (StoreOp.queryByName pid input.serialized_flow.name)) := by
    unfold resolveVersionGroup
    rw [if_neg (by decide)]
    dsimp only [FlowStore.findLatestByProjectAndName]
    rw [hnomatch]
    rfl
  have hform := resolve_create_flow_some env input st pid hpid
  rw [hvg, hres] at hform
  rw [createAndSupersede_falsy env
    (logOp st (StoreOp.queryByName pid input.serialized_flow.name)) pid
    input.serialized_flow none input.set_schedule_active input.description
    input.idempotency_key rfl] at hform
  refine ⟨by rw [hres], ?_, ?_⟩
  · rw [hform]
    rfl
  · rw [hform]
    unfold groupOf
    rw [List.find?_cons_of_pos _ (by simp [newFlowRecord, logOp])]
    rfl

/-- Witness for C7 at a concrete input with no matching name. -/
theorem resolve_mints_new_lineage_witness :
    subNew.project_id = some "P1"
    ∧ subNew.version_group_id = none
    ∧ stOne.flows.filter
        (fun r => decide (r.projectId = "P1"
          ∧ r.name = subNew.serialized_flow.name)) = []
    ∧ ((resolveVersionGroup stOne "P1" subNew.serialized_flow none).1
          = (none, true)
      ∧ (resolve_create_flow envAll subNew stOne).1
          = Except.ok (mkFlowId stOne.nextId)
      ∧ groupOf (resolve_create_flow envAll subNew stOne).2
          (mkFlowId stOne.nextId) = some (Sum.inr stOne.nextVgid)) :=
  ⟨rfl, rfl, by decide,
    resolve_mints_new_lineage envAll subNew stOne "P1" rfl rfl (by decide)⟩

/-- C10: a present-but-empty `versionGroupId` behaves exactly like an unset
one: the whole `createFlow` run is unchanged (so the empty value is never
propagated as a lineage identifier — the store still mints), and resolution
takes the name-and-project lookup (its only logged operation is the name
query, never the version-group existence check). -/
theorem empty_vgid_treated_as_unset (env : Env) (sf : SerializedFlow)
    (pid0 : Option String) (ssa : Bool) (d ik : Option String)
    (st : StoreState) (pid : String) :
    resolve_create_flow env ⟨sf, pid0, some (Sum.inl ""), ssa, d, ik⟩ st
      = resolve_create_flow env ⟨sf, pid0, none, ssa, d, ik⟩ st
    ∧ (resolveVersionGroup st pid sf (some (Sum.inl ""))).2.ops
        = StoreOp.queryByName pid sf.name :: st.ops := by
  constructor
  · cases pid0 with
    | none => rfl
    | some p =>
      rw [resolve_create_flow_some env ⟨sf, some p, some (Sum.inl ""), ssa, d, ik⟩
          st p rfl,
        resolve_create_flow_some env ⟨sf, some p, none, ssa, d, ik⟩ st p rfl]
      cases hhit : firstByCreatedDesc (st.flows.filter
          fun r => decide (r.projectId = p ∧ r.name = sf.name)) with
      | some f =>
        have e1 : resolveVersionGroup st p sf (some (Sum.inl ""))
            = ((some f.vg, false),
                logOp st (StoreOp.queryByName p sf.name)) := by
          unfold resolveVersionGroup
          rw [if_neg (by decide)]
          dsimp only [FlowStore.findLatestByProjectAndName]
          rw [hhit]
        have e2 : resolveVersionGroup st p sf none
            = ((some f.vg, false),
                logOp st (StoreOp.queryByName p sf.name)) := by
          unfold resolveVersionGroup
          rw [if_neg (by decide)]
          dsimp only [FlowStore.findLatestByProjectAndName]
          rw [hhit]
        rw [e1, e2]
      | none =>
        have e1 : resolveVersionGroup st p sf (some (Sum.inl ""))
            = ((some (Sum.inl ""), true),
                logOp st (StoreOp.queryByName p sf.name)) := by
          unfold resolveVersionGroup
          rw [if_neg (by decide)]
          dsimp only [FlowStore.findLatestByProjectAndName]
          rw [hhit]
        have e2 : resolveVersionGroup st p sf none
            = ((none, true),
                logOp st (StoreOp.queryByName p sf.name)) := by
          unfold resolveVersionGroup
          rw [if_neg (by decide)]
          dsimp only [FlowStore.findLatestByProjectAndName]
          rw [hhit]
        rw [e1, e2]
        rw [createAndSupersede_falsy env
            (logOp st (StoreOp.queryByName p sf.name)) p sf
            (some (Sum.inl "")) ssa d ik rfl,
          createAndSupersede_falsy env
            (logOp st (StoreOp.queryByName p sf.name)) p sf none
            ssa d ik rfl]
  · unfold resolveVersionGroup
    rw [if_neg (by decide)]
    dsimp only [FlowStore.findLatestByProjectAndName]
    split <;> rfl

/-- C1: after a successful `createFlow` run (no concurrent interference:
the embedding is sequential; every archive call succeeding), exactly one
record of the resulting version group — the group of the record created
under the returned flow id — is unarchived, namely the new flow itself, and
every other member of that group is archived. -/
theorem createFlow_exactly_one_active (env : Env) (input : CreateFlowInput)
    (st : StoreState) (fid : String) (hwf : WF st)
    (hok : ∀ i, env.archiveOk i = true)
    (hrun : (resolve_create_flow env input st).1 = Except.ok fid) :
    ∃ g, groupOf (resolve_create_flow env input st).2 fid = some g
      ∧ unarchivedCount (resolve_create_flow env input st).2 g = 1
      ∧ ∀ r ∈ (resolve_create_flow env input st).2.flows,
          r.vg = g → r.archived = false → r.id = fid := by
  cases hpid : input.project_id with
  | none =>
    rw [resolve_create_flow_none env input st hpid] at hrun
    cases hrun
  | some pid =>
    have hform := resolve_create_flow_some env input st pid hpid
    rw [hform] at hrun ⊢
    have hwf1 : WF (resolveVersionGroup st pid input.serialized_flow
        input.version_group_id).2 := by
      obtain ⟨h1, h2, h3, _⟩ := resolveVersionGroup_state st pid
        input.serialized_flow input.version_group_id
      exact WF_transfer hwf h1 h2 h3
    have hkey := createAndSupersede_one_active env
      (resolveVersionGroup st pid input.serialized_flow
        input.version_group_id).2 pid input.serialized_flow
      (resolveVersionGroup st pid input.serialized_flow
        input.version_group_id).1.1
      input.set_schedule_active input.description input.idempotency_key
      hwf1 hok
    have hfid : (createAndSupersede env
        (resolveVersionGroup st pid input.serialized_flow
          input.version_group_id).2 pid input.serialized_flow
        (resolveVersionGroup st pid input.serialized_flow
          input.version_group_id).1.1
        input.set_schedule_active input.description
        input.idempotency_key).1 = fid := by
      simpa using hrun
    rw [← hfid]
    simpa using hkey

/-- Witness for C1: one older unarchived version F1 in group G1; registering
a new "etl" version reuses G1 and leaves exactly the new flow unarchived. -/
theorem createFlow_exactly_one_active_witness :
    WF stOne
    ∧ ∃ g, groupOf (resolve_create_flow envAll subEtl stOne).2 "flow-0"
          = some g
      ∧ unarchivedCount (resolve_create_flow envAll subEtl stOne).2 g = 1
      ∧ ∀ r ∈ (resolve_create_flow envAll subEtl stOne).2.flows,
          r.vg = g → r.archived = false → r.id = "flow-0" :=
  ⟨by decide,
    createFlow_exactly_one_active envAll subEtl stOne "flow-0" (by decide)
      (fun i => rfl) rfl⟩

/-- C8: whenever resolution reports a new version group — whether because the
version-group id was unset and no name matched, or because a caller-supplied
id matched no record — the subsequent supersession step issues no archive
request against any record. -/
theorem no_archive_on_new_lineage (env : Env) (input : CreateFlowInput)
    (st : StoreState) (pid : String) (vg : Option VGid)
    (hpid : input.project_id = some pid)
    (hres : (resolveVersionGroup st pid input.serialized_flow
        input.version_group_id).1 = (vg, true)) :
    (resolve_create_flow env input st).2.ops.countP isArchiveOp
      = st.ops.countP isArchiveOp := by
  have hform := resolve_create_flow_some env input st pid hpid
  obtain ⟨hfl, hni, hnv, _⟩ := resolveVersionGroup_state st pid
    input.serialized_flow input.version_group_id
  have hcnt := (resolveVersionGroup_ops st pid input.serialized_flow
    input.version_group_id).1
  have hvg1 : (resolveVersionGroup st pid input.serialized_flow
      input.version_group_id).1.1 = vg := by rw [hres]
  rw [hform]
  dsimp only
  rw [hvg1]
  by_cases hpy : pyTruthy vg = true
  · cases vg with
    | none => simp [pyTruthy] at hpy
    | some g =>
      have htr : vgTruthy g = true := by simpa [pyTruthy] using hpy
      have hno : ∀ r ∈ st.flows, r.vg ≠ g :=
        resolveVersionGroup_explicit_new st pid input.serialized_flow
          input.version_group_id g (by rw [hres]) htr
      have hno2 : ∀ r ∈ (resolveVersionGroup st pid input.serialized_flow
          input.version_group_id).2.flows, r.vg ≠ g := by
        rw [hfl]
        exact hno
      rw [createAndSupersede_ops_no_member env _ pid input.serialized_flow g
        input.set_schedule_active input.description input.idempotency_key
        htr hno2]
      rw [List.countP_cons, List.countP_cons, hcnt]
      rfl
  · have hpy' : pyTruthy vg = false := Bool.not_eq_true _ ▸ hpy
    rw [createAndSupersede_ops_falsy env _ pid input.serialized_flow vg
      input.set_schedule_active input.description input.idempotency_key hpy']
    rw [List.countP_cons, hcnt]
    rfl

/-- Witness for C8: a caller-supplied group id G9 matching nothing; the run
issues no archive request. -/
theorem no_archive_on_new_lineage_witness :
    subEtlG9.project_id = some "P1"
    ∧ (resolveVersionGroup stOne "P1" subEtlG9.serialized_flow
        subEtlG9.version_group_id).1 = (some (Sum.inl "G9"), true)
    ∧ (resolve_create_flow envAll subEtlG9 stOne).2.ops.countP isArchiveOp
        = stOne.ops.countP isArchiveOp :=
  ⟨rfl, rfl,
    no_archive_on_new_lineage envAll subEtlG9 stOne "P1"
      (some (Sum.inl "G9")) rfl rfl⟩

/-- C3 counterexample: a new-lineage submission on an empty store. After
creation a version-group id is known — the store minted `Sum.inr 0` and the
created record carries it — yet the supersession step is not invoked: no
siblings query and no archive request is ever issued, because the resolver
gates supersession on its own pre-create `version_group_id` variable (the
source binds only the returned flow id, `flow_id = await
api.flows.create_flow(...)`). -/
theorem store_minted_group_no_supersession_cex :
    (resolve_create_flow envAll subNew stEmpty).1 = Except.ok "flow-0"
    ∧ groupOf (resolve_create_flow envAll subNew stEmpty).2 "flow-0"
        = some (Sum.inr 0)
    ∧ (resolve_create_flow envAll subNew stEmpty).2.ops.countP
        isSiblingQuery = 0
    ∧ (resolve_create_flow envAll subNew stEmpty).2.ops.countP
        isArchiveOp = 0 :=
  ⟨rfl, rfl, rfl, rfl⟩

/-- C3 (amended): the store's create returns the new flow id (and, in the
store model, the assigned version-group id), but the orchestration binds only
the flow id; the supersession step is invoked — with the resolver's
pre-create version-group id and the new flow id — exactly when that
pre-create value is truthy. A version-group id known only because the store
minted it does not trigger supersession. -/
theorem supersession_gated_on_resolver_vgid (env : Env)
    (input : CreateFlowInput) (st : StoreState) (pid : String)
    (hpid : input.project_id = some pid) :
    (∀ g, (resolveVersionGroup st pid input.serialized_flow
          input.version_group_id).1.1 = some g →
        vgTruthy g = true →
        StoreOp.querySiblings g (mkFlowId st.nextId)
          ∈ (resolve_create_flow env input st).2.ops)
    ∧ (pyTruthy (resolveVersionGroup st pid input.serialized_flow
          input.version_group_id).1.1 = false →
        (resolve_create_flow env input st).2.ops.countP isSiblingQuery
            = st.ops.countP isSiblingQuery
        ∧ (resolve_create_flow env input st).2.ops.countP isArchiveOp
            = st.ops.countP isArchiveOp) := by
  have hform := resolve_create_flow_some env input st pid hpid
  obtain ⟨hfl, hni, hnv, _⟩ := resolveVersionGroup_state st pid
    input.serialized_flow input.version_group_id
  have hcnt := resolveVersionGroup_ops st pid input.serialized_flow
    input.version_group_id
  constructor
  · intro g hg htr
    rw [hform]
    dsimp only
    rw [hg]
    have hmem := createAndSupersede_sibling_query env
      (resolveVersionGroup st pid input.serialized_flow
        input.version_group_id).2 pid input.serialized_flow g
      input.set_schedule_active input.description input.idempotency_key htr
    rw [hni] at hmem
    exact hmem
  · intro hfalsy
    rw [hform]
    dsimp only
    rw [createAndSupersede_ops_falsy env _ pid input.serialized_flow _
      input.set_schedule_active input.description input.idempotency_key
      hfalsy]
    constructor
    · rw [List.countP_cons, hcnt.2]
      rfl
    · rw [List.countP_cons, hcnt.1]
      rfl

/-- Witness for C3's amended theorem: a truthy resolved group (G1, reused)
gets its siblings query; a falsy one (fresh name, empty store) gets neither a
siblings query nor an archive. -/
theorem supersession_gated_on_resolver_vgid_witness :
    subEtlG1.project_id = some "P1"
    ∧ (resolveVersionGroup stOne "P1" subEtlG1.serialized_flow
        subEtlG1.version_group_id).1.1 = some (Sum.inl "G1")
    ∧ vgTruthy (Sum.inl "G1") = true
    ∧ StoreOp.querySiblings (Sum.inl "G1") (mkFlowId stOne.nextId)
        ∈ (resolve_create_flow envAll subEtlG1 stOne).2.ops
    ∧ pyTruthy (resolveVersionGroup stEmpty "P1" subNew.serialized_flow
        subNew.version_group_id).1.1 = false
    ∧ (resolve_create_flow envAll subNew stEmpty).2.ops.countP
        isSiblingQuery = stEmpty.ops.countP isSiblingQuery :=
  ⟨rfl, rfl, rfl,
    (supersession_gated_on_resolver_vgid envAll subEtlG1 stOne "P1" rfl).1
      (Sum.inl "G1") rfl rfl,
    rfl,
    ((supersession_gated_on_resolver_vgid envAll subNew stEmpty "P1" rfl).2
      rfl).1⟩

/-- C2 counterexample: group G1 holds unarchived siblings F1 and F2; the
archive of F1 fails while F2's succeeds. Both attempts are made and F2 ends
archived, but the failure is not surfaced: the store's success indicator is
discarded by the fan-out loop and the call still returns `ok` with the new
flow id — no error reaches the caller. -/
theorem archive_failure_not_surfaced_cex :
    envFailF1.archiveOk "F1" = false
    ∧ (resolve_create_flow envFailF1 subEtlG1 stTwo).1 = Except.ok "flow-0"
    ∧ (∃ r ∈ (resolve_create_flow envFailF1 subEtlG1 stTwo).2.flows,
        r.id = "F1" ∧ r.archived = false)
    ∧ (∀ r ∈ (resolve_create_flow envFailF1 subEtlG1 stTwo).2.flows,
        r.id = "F2" → r.archived = true)
    ∧ (resolve_create_flow envFailF1 subEtlG1 stTwo).2.ops.countP
        isArchiveOp = 2 :=
  ⟨rfl, rfl, by decide, by decide, rfl⟩

/-- C2 (amended): the fan-out is best-effort — a sibling whose own archive
call succeeds ends archived regardless of failures on other siblings, and an
attempt is made on every sibling — but individual failures are NOT surfaced:
the returned result of `createFlow` is independent of the archive outcomes
(the success indicator is discarded). -/
theorem archive_fanout_best_effort_silent :
    (∀ (env : Env) (st : StoreState) (ids : List String) (i : String),
        i ∈ ids → env.archiveOk i = true →
        ∀ r ∈ (archiveLoop env st ids).flows, r.id = i → r.archived = true)
    ∧ (∀ (env env2 : Env) (input : CreateFlowInput) (st : StoreState),
        (resolve_create_flow env input st).1
          = (resolve_create_flow env2 input st).1) := by
  constructor
  · intro env st ids i hmem hoki
    exact archiveLoop_marks env ids st i hmem hoki
  · intro env env2 input st
    cases hpid : input.project_id with
    | none =>
      rw [resolve_create_flow_none env input st hpid,
        resolve_create_flow_none env2 input st hpid]
    | some pid =>
      rw [resolve_create_flow_some env input st pid hpid,
        resolve_create_flow_some env2 input st pid hpid]
      dsimp only
      rw [createAndSupersede_fst, createAndSupersede_fst]

/-- Witness for C2's amended theorem: F2's archive succeeds even though F1's
failed earlier in the same fan-out, and the returned result is unchanged by
the failure. -/
theorem archive_fanout_best_effort_silent_witness :
    ("F2" ∈ ["F1", "F2"]
      ∧ envFailF1.archiveOk "F2" = true
      ∧ ∀ r ∈ (archiveLoop envFailF1 stTwo ["F1", "F2"]).flows,
          r.id = "F2" → r.archived = true)
    ∧ (resolve_create_flow envFailF1 subEtlG1 stTwo).1
        = (resolve_create_flow envAll subEtlG1 stTwo).1 :=
  ⟨⟨by decide, rfl,
      archive_fanout_best_effort_silent.1 envFailF1 stTwo ["F1", "F2"] "F2"
        (by decide) rfl⟩,
    archive_fanout_best_effort_silent.2 envFailF1 envAll subEtlG1 stTwo⟩

/-- C9 counterexample: `delete_flow` with an empty flow id performs no
precondition check — the call is delegated to the store and a success result
is returned instead of an invalid-argument error. -/
theorem delete_flow_no_precondition_cex :
    (resolve_delete_flow envAll ⟨some ""⟩ stEmpty).1
      = Except.ok (PassResult.success true)
    ∧ (resolve_delete_flow envAll ⟨some ""⟩ stEmpty).2.ops
        = [StoreOp.deleteOp (some "")] :=
  ⟨rfl, rfl⟩

/-- C9 (amended): the pass-throughs fall into three families. Delete,
archive, project reassignment and the schedule toggles delegate directly with
NO precondition check, wrapping the collaborator's result as a success flag
or id. Register tasks/edges reject only a null flow id (an empty string
passes) and then delegate, returning a literal success. The heartbeat and
lazarus toggles reject a falsy (null or empty) flow id — and a flow id
matching no record — before delegating. -/
theorem passthrough_precondition_behavior :
    (∀ (env : Env) (i : FlowIdInput) (st : StoreState),
        resolve_delete_flow env i st
          = (Except.ok (PassResult.success (env.deleteOk i.flow_id)),
              logOp st (StoreOp.deleteOp i.flow_id)))
    ∧ (∀ (env : Env) (i : FlowIdInput) (st : StoreState),
        resolve_archive_flow env i st
          = (Except.ok (PassResult.success (env.archiveDelegateOk i.flow_id)),
              logOp st (StoreOp.archiveDelegateOp i.flow_id)))
    ∧ (∀ (env : Env) (i : UpdateProjectInput) (st : StoreState),
        resolve_update_flow_project env i st
          = (Except.ok (PassResult.ident
                (env.updateProjectResult i.flow_id i.project_id)),
              logOp st (StoreOp.updateProjectOp i.flow_id i.project_id)))
    ∧ (∀ (env : Env) (i : FlowIdInput) (st : StoreState),
        resolve_set_schedule_active env i st
          = (Except.ok (PassResult.success (env.scheduleOk true i.flow_id)),
              logOp st (StoreOp.scheduleOp true i.flow_id)))
    ∧ (∀ (env : Env) (i : FlowIdInput) (st : StoreState),
        resolve_set_schedule_inactive env i st
          = (Except.ok (PassResult.success (env.scheduleOk false i.flow_id)),
              logOp st (StoreOp.scheduleOp false i.flow_id)))
    ∧ (∀ (p : List String) (st : StoreState),
        resolve_register_tasks ⟨p, none⟩ st
          = (Except.error ResolverError.invalidFlowId, st))
    ∧ (∀ (p : List String) (st : StoreState),
        resolve_register_tasks ⟨p, some ""⟩ st
          = (Except.ok (PassResult.success true),
              logOp st (StoreOp.registerTasksOp (some ""))))
    ∧ (∀ (p : List String) (st : StoreState),
        resolve_register_edges ⟨p, none⟩ st
          = (Except.error ResolverError.invalidFlowId, st))
    ∧ (∀ (p : List String) (st : StoreState),
        resolve_register_edges ⟨p, some ""⟩ st
          = (Except.ok (PassResult.success true),
              logOp st (StoreOp.registerEdgesOp (some ""))))
    ∧ (∀ (env : Env) (st : StoreState),
        resolve_disable_heartbeat_for_flow env ⟨none⟩ st
            = (Except.error ResolverError.invalidFlowId, st)
        ∧ resolve_disable_heartbeat_for_flow env ⟨some ""⟩ st
            = (Except.error ResolverError.invalidFlowId, st))
    ∧ (∀ (env : Env) (st : StoreState),
        resolve_enable_heartbeat_for_flow env ⟨none⟩ st
            = (Except.error ResolverError.invalidFlowId, st)
        ∧ resolve_enable_heartbeat_for_flow env ⟨some ""⟩ st
            = (Except.error ResolverError.invalidFlowId, st))
    ∧ (∀ (env : Env) (st : StoreState),
        resolve_enable_flow_lazarus_process env ⟨none⟩ st
            = (Except.error ResolverError.invalidFlowId, st)
        ∧ resolve_enable_flow_lazarus_process env ⟨some ""⟩ st
            = (Except.error ResolverError.invalidFlowId, st))
    ∧ (∀ (env : Env) (st : StoreState),
        resolve_disable_flow_lazarus_process env ⟨none⟩ st
            = (Except.error ResolverError.invalidFlowId, st)
        ∧ resolve_disable_flow_lazarus_process env ⟨some ""⟩ st
            = (Except.error ResolverError.invalidFlowId, st)) := by
  refine ⟨fun env i st => rfl, fun env i st => rfl, fun env i st => rfl,
    fun env i st => rfl, fun env i st => rfl, fun p st => rfl,
    fun p st => rfl, fun p st => rfl, fun p st => rfl,
    fun env st => ⟨rfl, rfl⟩, fun env st => ⟨rfl, rfl⟩,
    fun env st => ⟨rfl, rfl⟩, fun env st => ⟨rfl, rfl⟩⟩

end FlowsResolver
